import Mathlib

/-!
Verification of the specter CLI core against its specification.

Go strings are modelled as `List Char` (the sources only ever index them
bytewise on ASCII data) and byte slices as `List Nat` with every element
below 256.  Fallible Go functions returning `(T, error)` become
`Except E T`.  External library calls (Go's `encoding/json`, `yaml.v3`,
`goldmark`) are modelled as explicit function parameters or small
documented models; everything else is translated directly from the
repository sources.
-/

deriving instance DecidableEq for Except

namespace Specter

/-! ## Hex primitives (`api/auth.go`, `hexDecode`) -/

/-- Errors produced by `hexDecode` in `api/auth.go`: the function returns
`fmt.Errorf("hex string has odd length")` or
`fmt.Errorf("invalid hex character: %c", c)`. -/
inductive HexError where
  | oddLength : HexError
  | invalidChar : Char → HexError
deriving DecidableEq, Repr

/-- Decoding of one hex character, translated from the `switch` inside the
decode loop of `hexDecode` (auth.go lines 50-61). -/
def hexNibble (c : Char) : Except HexError Nat :=
  if '0' ≤ c ∧ c ≤ '9' then .ok (c.toNat - '0'.toNat)
  else if 'a' ≤ c ∧ c ≤ 'f' then .ok (c.toNat - 'a'.toNat + 10)
  else if 'A' ≤ c ∧ c ≤ 'F' then .ok (c.toNat - 'A'.toNat + 10)
  else .error (.invalidChar c)

/-- One iteration pair of the decode loop: two characters are combined as
`b = b<<4 | nibble`, starting from `b = 0` (auth.go lines 47-64). -/
def hexPair (c1 c2 : Char) : Except HexError Nat := do
  let n1 ← hexNibble c1
  let n2 ← hexNibble c2
  pure (((0 <<< 4 ||| n1) <<< 4) ||| n2)

/-- Decode loop of `hexDecode` over an even-length character list, two
characters per output byte. -/
def hexDecodeEven : List Char → Except HexError (List Nat)
  | [] => .ok []
  | [_] => .error .oddLength
  | c1 :: c2 :: rest => do
    let b ← hexPair c1 c2
    let bs ← hexDecodeEven rest
    pure (b :: bs)

/-- Translation of `hexDecode` (auth.go lines 41-67): reject odd-length
input, then decode two characters per byte. -/
def hexDecode (s : List Char) : Except HexError (List Nat) :=
  if s.length % 2 ≠ 0 then .error .oddLength
  else hexDecodeEven s

/-- Lowercase hex digit for a value below 16. -/
def hexDigit (n : Nat) : Char :=
  if n < 10 then Char.ofNat ('0'.toNat + n)
  else Char.ofNat ('a'.toNat + (n - 10))

/-- Uppercase hex digit for a value below 16. -/
def hexDigitUpper (n : Nat) : Char :=
  if n < 10 then Char.ofNat ('0'.toNat + n)
  else Char.ofNat ('A'.toNat + (n - 10))

/-- Modelled from the spec: `hexEncode` (spec §8 round-trip property); the
repository has no encoder, so this is the standard lowercase hex encoding,
two characters per input byte. -/
def hexEncode : List Nat → List Char
  | [] => []
  | b :: bs => hexDigit (b / 16) :: hexDigit (b % 16) :: hexEncode bs

/-- Uppercase variant of `hexEncode`, used to state case-insensitive
acceptance. -/
def hexEncodeUpper : List Nat → List Char
  | [] => []
  | b :: bs => hexDigitUpper (b / 16) :: hexDigitUpper (b % 16) :: hexEncodeUpper bs

/-- Character class accepted by `hexNibble`. -/
def isHexChar (c : Char) : Prop :=
  ('0' ≤ c ∧ c ≤ '9') ∨ ('a' ≤ c ∧ c ≤ 'f') ∨ ('A' ≤ c ∧ c ≤ 'F')

instance (c : Char) : Decidable (isHexChar c) := by
  unfold isHexChar; infer_instance

/-! ## SHA-256 and HMAC

Models of Go's `crypto/sha256` and `crypto/hmac` standard-library packages
(external dependencies of `api/auth.go`, reached through
`jwt.SigningMethodHS256`), implemented bytewise over `List Nat` with
arithmetic reduced modulo `2^32`. -/

/-- Reduce a natural number to a 32-bit word. -/
def w32 (n : Nat) : Nat := n % 4294967296

/-- Right rotation of a 32-bit word by `k` bits. -/
def rotr32 (x k : Nat) : Nat := w32 ((x >>> k) ||| (x <<< (32 - k)))

/-- SHA-256 round constants (decimal). -/
def sha256K : List Nat :=
  [1116352408, 1899447441, 3049323471, 3921009573, 961987163, 1508970993,
   2453635748, 2870763221, 3624381080, 310598401, 607225278, 1426881987,
   1925078388, 2162078206, 2614888103, 3248222580, 3835390401, 4022224774,
   264347078, 604807628, 770255983, 1249150122, 1555081692, 1996064986,
   2554220882, 2821834349, 2952996808, 3210313671, 3336571891, 3584528711,
   113926993, 338241895, 666307205, 773529912, 1294757372, 1396182291,
   1695183700, 1986661051, 2177026350, 2456956037, 2730485921, 2820302411,
   3259730800, 3345764771, 3516065817, 3600352804, 4094571909, 275423344,
   430227734, 506948616, 659060556, 883997877, 958139571, 1322822218,
   1537002063, 1747873779, 1955562222, 2024104815, 2227730452, 2361852424,
   2428436474, 2756734187, 3204031479, 3329325298]

/-- SHA-256 initial hash state (decimal). -/
def sha256Init : List Nat :=
  [1779033703, 3144134277, 1013904242, 2773480762,
   1359893119, 2600822924, 528734635, 1541459225]

/-- Big-endian 8-byte rendering of a natural number. -/
def be64 (n : Nat) : List Nat :=
  [(n >>> 56) % 256, (n >>> 48) % 256, (n >>> 40) % 256, (n >>> 32) % 256,
   (n >>> 24) % 256, (n >>> 16) % 256, (n >>> 8) % 256, n % 256]

/-- Merkle-Damgard padding: a 0x80 byte, zeros to 56 mod 64, then the
bit length as a big-endian 64-bit integer. -/
def sha256Pad (msg : List Nat) : List Nat :=
  msg ++ 0x80 :: List.replicate ((119 - msg.length % 64) % 64) 0 ++ be64 (8 * msg.length)

/-- Group a byte list into chunks of 64 bytes. -/
def chunks64 : List Nat → List (List Nat)
  | [] => []
  | x :: rest => (x :: rest.take 63) :: chunks64 (rest.drop 63)
termination_by l => l.length
decreasing_by simp only [List.length_drop, List.length_cons]; omega

/-- Combine bytes into big-endian 32-bit words. -/
def bytesToWords : List Nat → List Nat
  | a :: b :: c :: d :: rest => (((a * 256 + b) * 256 + c) * 256 + d) :: bytesToWords rest
  | _ => []

/-- Extend 16 message-schedule words to 64. -/
def sha256Extend (w16 : List Nat) : List Nat :=
  (List.range 48).foldl
    (fun ws i =>
      let g := fun j => ws.getD j 0
      let s0 := rotr32 (g (i + 1)) 7 ^^^ rotr32 (g (i + 1)) 18 ^^^ (g (i + 1) >>> 3)
      let s1 := rotr32 (g (i + 14)) 17 ^^^ rotr32 (g (i + 14)) 19 ^^^ (g (i + 14) >>> 10)
      ws ++ [w32 (g i + s0 + g (i + 9) + s1)])
    w16

/-- One SHA-256 compression round over a 64-word schedule. -/
def sha256Compress (h : List Nat) (w : List Nat) : List Nat :=
  let get := fun (l : List Nat) (j : Nat) => l.getD j 0
  let fin := (List.range 64).foldl
    (fun (st : Nat × Nat × Nat × Nat × Nat × Nat × Nat × Nat) i =>
      let (a, b, c, d, e, f, g, hh) := st
      let s1 := rotr32 e 6 ^^^ rotr32 e 11 ^^^ rotr32 e 25
      let ch := (e &&& f) ^^^ ((e ^^^ 4294967295) &&& g)
      let temp1 := w32 (hh + s1 + ch + get sha256K i + get w i)
      let s0 := rotr32 a 2 ^^^ rotr32 a 13 ^^^ rotr32 a 22
      let maj := (a &&& b) ^^^ (a &&& c) ^^^ (b &&& c)
      let temp2 := w32 (s0 + maj)
      (w32 (temp1 + temp2), a, b, c, w32 (d + temp1), e, f, g))
    (get h 0, get h 1, get h 2, get h 3, get h 4, get h 5, get h 6, get h 7)
  let (a, b, c, d, e, f, g, hh) := fin
  [w32 (get h 0 + a), w32 (get h 1 + b), w32 (get h 2 + c), w32 (get h 3 + d),
   w32 (get h 4 + e), w32 (get h 5 + f), w32 (get h 6 + g), w32 (get h 7 + hh)]

/-- SHA-256 of a byte list. -/
def sha256 (msg : List Nat) : List Nat :=
  let final := (chunks64 (sha256Pad msg)).foldl
    (fun h blk => sha256Compress h (sha256Extend (bytesToWords blk))) sha256Init
  final.flatMap fun wv => [(wv >>> 24) % 256, (wv >>> 16) % 256, (wv >>> 8) % 256, wv % 256]

/-- HMAC-SHA256 with block size 64, modelling Go's `crypto/hmac` over
`crypto/sha256`. -/
def hmacSha256 (key msg : List Nat) : List Nat :=
  let k0 := if 64 < key.length then sha256 key else key
  let kp := k0 ++ List.replicate (64 - k0.length) 0
  sha256 ((kp.map (fun b => b ^^^ 0x5c)) ++ sha256 ((kp.map (fun b => b ^^^ 0x36)) ++ msg))

/-! ## Encoding helpers for the JWT wire format

Models of `encoding/base64` (RawURLEncoding, as used by golang-jwt v5),
UTF-8 byte encoding of strings, and `encoding/json` string escaping with
Go's default HTML escaping. -/

/-- UTF-8 byte encoding of a character list. -/
def utf8Bytes (s : List Char) : List Nat :=
  s.flatMap fun c =>
    let n := c.toNat
    if n < 0x80 then [n]
    else if n < 0x800 then [0xc0 ||| (n >>> 6), 0x80 ||| (n % 64)]
    else if n < 0x10000 then
      [0xe0 ||| (n >>> 12), 0x80 ||| ((n >>> 6) % 64), 0x80 ||| (n % 64)]
    else
      [0xf0 ||| (n >>> 18), 0x80 ||| ((n >>> 12) % 64), 0x80 ||| ((n >>> 6) % 64), 0x80 ||| (n % 64)]

/-- Character of the base64url alphabet for a 6-bit value. -/
def b64Char (n : Nat) : Char :=
  if n < 26 then Char.ofNat ('A'.toNat + n)
  else if n < 52 then Char.ofNat ('a'.toNat + (n - 26))
  else if n < 62 then Char.ofNat ('0'.toNat + (n - 52))
  else if n = 62 then '-' else '_'

/-- Unpadded base64url encoding (`base64.RawURLEncoding`). -/
def base64url : List Nat → List Char
  | [] => []
  | [a] => [b64Char (a >>> 2), b64Char ((a % 4) <<< 4)]
  | [a, b] => [b64Char (a >>> 2), b64Char (((a % 4) <<< 4) ||| (b >>> 4)), b64Char ((b % 16) <<< 2)]
  | a :: b :: c :: rest =>
    b64Char (a >>> 2) :: b64Char (((a % 4) <<< 4) ||| (b >>> 4)) ::
      b64Char (((b % 16) <<< 2) ||| (c >>> 6)) :: b64Char (c % 64) :: base64url rest

/-- Escape one character the way Go's `encoding/json` does with its
default HTML escaping (quote, backslash, newline, carriage return, tab,
angle brackets and ampersand, other control characters as \u00XX). -/
def jsonEscapeChar (c : Char) : List Char :=
  if c = '"' then ['\\', '"']
  else if c = '\\' then ['\\', '\\']
  else if c = '\n' then ['\\', 'n']
  else if c = '\r' then ['\\', 'r']
  else if c = '\t' then ['\\', 't']
  else if c = '<' then "\\u003c".toList
  else if c = '>' then "\\u003e".toList
  else if c = '&' then "\\u0026".toList
  else if c.toNat < 0x20 then
    ['\\', 'u', '0', '0', hexDigit (c.toNat / 16), hexDigit (c.toNat % 16)]
  else [c]

/-- JSON string literal for a character list. -/
def jsonString (s : List Char) : List Char :=
  '"' :: (s.flatMap jsonEscapeChar ++ ['"'])

/-! ## Token issuance (`api/auth.go`, `GenerateToken`) -/

/-- Error taxonomy of `GenerateToken`: the bad-format error for a key with
no separator (auth.go line 16) and the bad-secret error wrapping a hex
decode failure (auth.go line 25). -/
inductive AuthError where
  | badFormat : AuthError
  | badSecret : HexError → AuthError
deriving DecidableEq, Repr

/-- Go's `strings.SplitN(s, ":", 2)`, viewed through the two-part check of
auth.go lines 14-20: `some (before, after)` splits at the first colon,
`none` when the string has no colon (in which case `SplitN` yields a
single part and the length check fails). -/
def splitFirstColon : List Char → Option (List Char × List Char)
  | [] => none
  | c :: rest =>
    if c = ':' then some ([], rest)
    else
      match splitFirstColon rest with
      | none => none
      | some (l, r) => some (c :: l, r)

/-- Structured view of the JWT built by auth.go lines 28-38: the header
fields `alg` (from `jwt.SigningMethodHS256`) and `kid`, the claims
`iat`, `exp`, `aud`, and the HMAC key bytes. Timestamps are Unix seconds
(`time.Time.Unix`). -/
structure TokenParts where
  alg : List Char
  kid : List Char
  iat : Int
  exp : Int
  aud : List Char
  secretBytes : List Nat
deriving DecidableEq, Repr

/-- JSON rendering of the token header, with keys in the sorted order
produced by Go's `json.Marshal` on a map: `alg`, `kid`, `typ`. -/
def headerJson (t : TokenParts) : List Char :=
  "\x7b\"alg\":".toList ++ jsonString t.alg ++ ",\"kid\":".toList ++ jsonString t.kid
    ++ ",\"typ\":\"JWT\"\x7d".toList

/-- JSON rendering of the token claims, keys sorted: `aud`, `exp`, `iat`. -/
def claimsJson (t : TokenParts) : List Char :=
  "\x7b\"aud\":".toList ++ jsonString t.aud ++ ",\"exp\":".toList ++ (toString t.exp).toList
    ++ ",\"iat\":".toList ++ (toString t.iat).toList ++ "\x7d".toList

/-- The JWT signing input: base64url of the header JSON, a dot, base64url
of the claims JSON (golang-jwt `Token.SigningString`). -/
def signingInput (t : TokenParts) : List Char :=
  base64url (utf8Bytes (headerJson t)) ++ '.' :: base64url (utf8Bytes (claimsJson t))

/-- The token signature: HMAC-SHA256 of the signing input under the
decoded secret bytes (golang-jwt `SigningMethodHMAC.Sign`). -/
def TokenParts.signature (t : TokenParts) : List Nat :=
  hmacSha256 t.secretBytes (utf8Bytes (signingInput t))

/-- The compact serialized JWT: signing input, a dot, base64url of the
signature (golang-jwt `Token.SignedString`). -/
def TokenParts.compact (t : TokenParts) : List Char :=
  signingInput t ++ '.' :: base64url t.signature

/-- Token fields assembled by auth.go lines 28-36 for a given key id,
decoded secret and clock reading: `iat = now`, `exp = now + 300`,
`aud = "/admin/"`, algorithm `HS256`. -/
def mkToken (kid : List Char) (secretBytes : List Nat) (now : Int) : TokenParts :=
  ⟨"HS256".toList, kid, now, now + 300, "/admin/".toList, secretBytes⟩

/-- Translation of `GenerateToken` (auth.go lines 13-39). The `time.Now()`
call is modelled by the explicit `now` parameter (see
`generateTokenWithClock` for the effectful wrapper). -/
def GenerateToken (adminKey : List Char) (now : Int) : Except AuthError (List Char) :=
  match splitFirstColon adminKey with
  | none => .error .badFormat
  | some (keyID, secret) =>
    match hexDecode secret with
    | .error e => .error (.badSecret e)
    | .ok secretBytes => .ok (mkToken keyID secretBytes now).compact

/-- Ambient process state as seen by `GenerateToken`: the wall clock in
Unix seconds, plus an abstract remainder of the world that the function
never reads or writes. -/
structure World where
  nowSec : Int
  env : Nat
deriving DecidableEq, Repr

/-- Effectful view of `GenerateToken`: the function's only interaction
with the outside world is reading the clock (`time.Now()`, auth.go line
28); it writes nothing, so the world is returned unchanged. -/
def generateTokenWithClock (w : World) (adminKey : List Char) :
    Except AuthError (List Char) × World :=
  (GenerateToken adminKey w.nowSec, w)

/-! ## Response classification (`api/client.go`) -/

/-- One item of the `errors` array of a Ghost error body
(client.go lines 36-42). -/
structure ApiErrorItem where
  message : List Char
  context : List Char
  errType : List Char
deriving DecidableEq, Repr

/-- The `APIError` struct of client.go: a decoded non-2xx JSON body. -/
structure APIError where
  errors : List ApiErrorItem
deriving DecidableEq, Repr

/-- Failure modes of the response classification in `doRequest`
(client.go lines 96-102): the structured `APIError`, or the generic
`fmt.Errorf("API error: %s (status %d)", body, status)`. -/
inductive RequestError where
  | api : APIError → RequestError
  | generic : List Char → Nat → RequestError
deriving DecidableEq, Repr

/-- Response classification step of `doRequest` (client.go lines 96-104),
applied to the status code and fully-read body of the HTTP response.
`decodeApiError` stands for `json.Unmarshal` into `APIError` (Go
standard library): `none` when unmarshalling fails, `some` with the
decoded value otherwise (an absent or empty `errors` field decodes to an
empty list). -/
def classifyResponse (decodeApiError : List Char → Option APIError)
    (status : Nat) (body : List Char) : Except RequestError (List Char) :=
  if 400 ≤ status then
    match decodeApiError body with
    | some e => if 0 < e.errors.length then .error (.api e) else .error (.generic body status)
    | none => .error (.generic body status)
  else .ok body

/-- One entry of the `images` array in an upload response
(client.go lines 194-199). -/
structure ImageEntry where
  url : List Char
  ref : List Char
deriving DecidableEq, Repr

/-- Failure modes of the response handling in `UploadImage`
(client.go lines 186-208): structured API error, the generic
`"upload error: %s"` (no status in this one), the `"parsing response"`
unmarshal failure, and `"no image URL in response"`. -/
inductive UploadError where
  | api : APIError → UploadError
  | generic : List Char → UploadError
  | parseResponse : UploadError
  | noImageURL : UploadError
deriving DecidableEq, Repr

/-- Response handling of `UploadImage` (client.go lines 186-208) applied
to the status code and fully-read body. `decodeImages` stands for
`json.Unmarshal` into the anonymous result struct: `none` on unmarshal
failure, otherwise `some` with the decoded `images` array (an absent
`images` field leaves the slice nil, i.e. the empty list). -/
def uploadHandleResponse (decodeApiError : List Char → Option APIError)
    (decodeImages : List Char → Option (List ImageEntry))
    (status : Nat) (body : List Char) : Except UploadError (List Char) :=
  if 400 ≤ status then
    match decodeApiError body with
    | some e => if 0 < e.errors.length then .error (.api e) else .error (.generic body)
    | none => .error (.generic body)
  else
    match decodeImages body with
    | none => .error .parseResponse
    | some imgs =>
      match imgs with
      | [] => .error .noImageURL
      | img :: _ => .ok img.url

/-! ## Pagination walker (`runPostsList`, posts command file, lines 186-209) -/

/-- A decoded `postsResponse`, reduced to the fields the loop reads: the
`posts` array and `meta.pagination.next` (0 meaning no further pages). -/
structure PostsPage (α : Type) where
  posts : List α
  nextCursor : Int
deriving DecidableEq, Repr

/-- Outcome of the pagination loop, with the trace of `(limit, page)`
query-parameter pairs sent, in order. `outOfFuel` marks the cut-off of
the fuelled model of Go's unbounded `for` loop (the source has no
iteration bound; see spec §9). -/
inductive FetchResult (α : Type) where
  | ok : List α → List (Nat × Int) → FetchResult α
  | failed : List Char → List (Nat × Int) → FetchResult α
  | outOfFuel : FetchResult α
deriving DecidableEq, Repr

/-- Loop body of the `--all` branch of `runPostsList`: request with
`limit=100, page=cursor`, append the decoded posts, stop when the
reported next cursor is 0, else continue there. `server` stands for
`client.Get` followed by `json.Unmarshal` into `postsResponse`; an
`.error` covers both a pipeline failure and a decode failure (either
returns from the Go function early). -/
def fetchAllAux (server : Nat → Int → Except (List Char) (PostsPage α)) :
    Nat → Int → List α → List (Nat × Int) → FetchResult α
  | 0, _, _, _ => .outOfFuel
  | fuel + 1, page, acc, reqs =>
    match server 100 page with
    | .error e => .failed e (reqs ++ [(100, page)])
    | .ok resp =>
      let acc2 := acc ++ resp.posts
      if resp.nextCursor = 0 then .ok acc2 (reqs ++ [(100, page)])
      else fetchAllAux server fuel resp.nextCursor acc2 (reqs ++ [(100, page)])

/-- The `--all` pagination walk of `runPostsList`: start at page 1 with an
empty accumulator. -/
def fetchAllPosts (server : Nat → Int → Except (List Char) (PostsPage α))
    (fuel : Nat) : FetchResult α :=
  fetchAllAux server fuel 1 [] []

/-- Stub server for the pagination example of spec §8: page 1 holds items
1 and 2 with next cursor 2; page 2 holds item 3 with next cursor 0. -/
def stubServer : Nat → Int → Except (List Char) (PostsPage Nat) :=
  fun _ page =>
    if page = 1 then .ok ⟨[1, 2], 2⟩
    else if page = 2 then .ok ⟨[3], 0⟩
    else .error "unexpected page".toList

/-! ## Frontmatter parser (content package, `Parse`) -/

/-- The per-token trailing carriage-return strip of `bufio.ScanLines`. -/
def dropCR (line : List Char) : List Char :=
  match line.getLast? with
  | some '\r' => line.dropLast
  | _ => line

/-- Worker for `scanLines`: accumulate characters of the current line
(in reverse) until a newline or end of input. -/
def scanGo : List Char → List Char → List (List Char)
  | [], acc => [dropCR acc.reverse]
  | '\n' :: rest, acc =>
    dropCR acc.reverse :: (match rest with | [] => [] | r => scanGo r [])
  | c :: rest, acc => scanGo rest (c :: acc)

/-- The token sequence produced by `bufio.Scanner` with its default
`ScanLines` split function: lines without their terminating newline, a
single trailing carriage return stripped, no empty token after a final
newline, and no token at all for empty input. -/
def scanLines (data : List Char) : List (List Char) :=
  match data with
  | [] => []
  | d => scanGo d []

/-- Whitespace trimmed by Go's `strings.TrimSpace`, modelled over the
ASCII space characters. -/
def goIsSpace (c : Char) : Bool :=
  c = ' ' ∨ c = '\t' ∨ c = '\n' ∨ c = '\x0b' ∨ c = '\x0c' ∨ c = '\r'

/-- Model of `strings.TrimSpace`: drop leading and trailing whitespace. -/
def trimSpace (s : List Char) : List Char :=
  ((s.dropWhile goIsSpace).reverse.dropWhile goIsSpace).reverse

/-- The `Frontmatter` struct of the content package; list-valued fields
default to empty and `featured` to false, matching Go zero values. -/
structure Frontmatter where
  title : List Char
  slug : List Char
  tags : List (List Char)
  featured : Bool
  status : List Char
  excerpt : List Char
  metaTitle : List Char
  metaDesc : List Char
  featureImg : List Char
  publishedAt : List Char
deriving DecidableEq, Repr, Inhabited

/-- The `ParsedContent` struct of the content package, field for field. -/
structure ParsedContent where
  frontmatter : Frontmatter
  html : List Char
  markdown : List Char
deriving DecidableEq, Repr

/-- Failure modes of `Parse` (part_000 lines 62-106): the wrapped YAML
error `"parsing frontmatter: %w"` and the wrapped renderer error
`"converting markdown: %w"`. (The scanner error branch is unreachable on
an in-memory `bytes.Reader`.) -/
inductive ParseError where
  | frontmatterDecode : List Char → ParseError
  | convertMarkdown : List Char → ParseError
deriving DecidableEq, Repr

/-- Each line followed by a newline, as built by the `WriteString(line);
WriteString("\n")` pairs of the Go accumulation loops. -/
def joinLinesNL (ls : List (List Char)) : List Char :=
  ls.flatMap (fun l => l ++ ['\n'])

/-- Translation of `Parse` (part_000 lines 62-106) over the scanned line
sequence. `yamlDecode` stands for `yaml.Unmarshal` into `Frontmatter`
(external `yaml.v3` library) and `mdConvert` for `goldmark.Convert`
(external renderer). Note the faithful consequence of the Go control
flow: the initial `scanner.Scan()` consumes the first line even when it
is not the delimiter, and the body loop then starts at the second line,
so that first line appears in neither the metadata nor the body. -/
def Parse (yamlDecode : List Char → Except (List Char) Frontmatter)
    (mdConvert : List Char → Except (List Char) (List Char))
    (data : List Char) : Except ParseError ParsedContent :=
  match scanLines data with
  | [] =>
    match mdConvert (joinLinesNL []) with
    | .error e => .error (.convertMarkdown e)
    | .ok html => .ok ⟨default, html, joinLinesNL []⟩
  | first :: rest =>
    if trimSpace first = "---".toList then
      let fmLines := rest.takeWhile (fun l => ¬ trimSpace l = "---".toList)
      let afterFm := rest.dropWhile (fun l => ¬ trimSpace l = "---".toList)
      let bodyLines := afterFm.tail
      match yamlDecode (joinLinesNL fmLines) with
      | .error e => .error (.frontmatterDecode e)
      | .ok fm =>
        let md := joinLinesNL bodyLines
        match mdConvert md with
        | .error e => .error (.convertMarkdown e)
        | .ok html => .ok ⟨fm, html, md⟩
    else
      let md := joinLinesNL rest
      match mdConvert md with
      | .error e => .error (.convertMarkdown e)
      | .ok html => .ok ⟨default, html, md⟩

/-- Modelled from the spec and the external `yaml.v3` library, which is
not part of this repository: decoder behaviour at the inputs exercised by
concrete theorems. Empty input holds no YAML document and leaves the
struct at its zero value; `"title: Hi\n"` sets the `title` field. -/
def yamlModel (s : List Char) : Except (List Char) Frontmatter :=
  if s = "title: Hi\n".toList then
    .ok ⟨"Hi".toList, [], [], false, [], [], [], [], [], []⟩
  else if s = [] then .ok default
  else .error "unmodelled yaml input".toList

/-- Modelled from the spec and the external `goldmark` renderer, which is
not part of this repository: `Convert` does not fail on the plain-text
inputs exercised here. The body text is passed through, standing for its
rendering. -/
def mdModel (s : List Char) : Except (List Char) (List Char) := .ok s

/-! ## Theorems -/

/-- C1: the claim says an input whose first line is not the delimiter is
returned with the full input as body, first line included. The code
instead drops the line consumed by the initial `scanner.Scan()`: on
`"Hello\nWorld\n"` the parsed body is `"World\n"`, not the full input,
while the metadata is indeed the zero value. -/
theorem c1_parse_drops_first_line :
    Parse yamlModel mdModel "Hello\nWorld\n".toList
        = .ok ⟨default, "World\n".toList, "World\n".toList⟩ ∧
      "World\n".toList ≠ "Hello\nWorld\n".toList := by
  constructor
  · decide
  · decide

/-- C2 counterexample: the input `"---\ntitle: Hi\n"` opens a frontmatter
block and ends without a closing delimiter, yet `Parse` succeeds (with
every remaining line treated as metadata and an empty body) instead of
failing with an unterminated-frontmatter error, which does not exist in
the code. -/
theorem c2_unterminated_counterexample :
    Parse yamlModel mdModel "---\ntitle: Hi\n".toList
      = .ok ⟨⟨"Hi".toList, [], [], false, [], [], [], [], [], []⟩, [], []⟩ := by
  decide

/-- C2 amended: when the input opens a frontmatter block and reaches end
of input without a closing delimiter, `Parse` does not fail with an
unterminated-frontmatter error; every remaining line becomes part of the
metadata block handed to the YAML decoder, and the body is empty. -/
theorem c2_unterminated_is_all_metadata
    (yamlDecode : List Char → Except (List Char) Frontmatter)
    (mdConvert : List Char → Except (List Char) (List Char))
    (data first : List Char) (rest : List (List Char))
    (hscan : scanLines data = first :: rest)
    (hfirst : trimSpace first = "---".toList)
    (hnoclose : ∀ l ∈ rest, ¬ trimSpace l = "---".toList) :
    Parse yamlDecode mdConvert data =
      match yamlDecode (joinLinesNL rest) with
      | .error e => .error (.frontmatterDecode e)
      | .ok fm =>
        match mdConvert [] with
        | .error e => .error (.convertMarkdown e)
        | .ok html => .ok ⟨fm, html, []⟩ := by
  have htake : rest.takeWhile (fun l => ¬ trimSpace l = "---".toList) = rest := by
    rw [List.takeWhile_eq_self_iff]
    intro l hl
    simpa using hnoclose l hl
  have hdrop : rest.dropWhile (fun l => ¬ trimSpace l = "---".toList) = [] := by
    rw [List.dropWhile_eq_nil_iff]
    intro l hl
    simpa using hnoclose l hl
  unfold Parse
  rw [hscan]
  simp only [hfirst, if_pos, htake, hdrop, List.tail_nil, joinLinesNL, List.flatMap_nil]

/-- C2 amended, witness: the spec's own example input, with the modelled
YAML decoder and renderer. -/
theorem c2_unterminated_is_all_metadata_witness :
    Parse yamlModel mdModel "---\ntitle: Hi\n".toList
      = .ok ⟨⟨"Hi".toList, [], [], false, [], [], [], [], [], []⟩, [], []⟩ := by
  have h := c2_unterminated_is_all_metadata yamlModel mdModel
    "---\ntitle: Hi\n".toList "---".toList ["title: Hi".toList]
    (by decide) (by decide) (by decide)
  simpa using h

/-- C3: token issuance is a pure function of the admin key and the clock:
it leaves the world unchanged, and any two worlds that agree on the clock
(whatever the rest of their state) yield byte-identical tokens. -/
theorem c3_generateToken_deterministic
    (w1 w2 : World) (adminKey : List Char) (h : w1.nowSec = w2.nowSec) :
    (generateTokenWithClock w1 adminKey).1 = (generateTokenWithClock w2 adminKey).1 ∧
      (generateTokenWithClock w1 adminKey).2 = w1 ∧
      (generateTokenWithClock w2 adminKey).2 = w2 := by
  refine ⟨?_, rfl, rfl⟩
  simp only [generateTokenWithClock, h]

/-- C3 witness: two invocations on worlds sharing the clock reading but
differing elsewhere produce the same token and touch neither world. -/
theorem c3_generateToken_deterministic_witness :
    (generateTokenWithClock ⟨1700000000, 0⟩ "abc123:deadbeef".toList).1
        = (generateTokenWithClock ⟨1700000000, 99⟩ "abc123:deadbeef".toList).1 ∧
      (generateTokenWithClock ⟨1700000000, 0⟩ "abc123:deadbeef".toList).2 = ⟨1700000000, 0⟩ ∧
      (generateTokenWithClock ⟨1700000000, 99⟩ "abc123:deadbeef".toList).2 = ⟨1700000000, 99⟩ :=
  c3_generateToken_deterministic ⟨1700000000, 0⟩ ⟨1700000000, 99⟩ "abc123:deadbeef".toList rfl

/-- C5: the response classification of `doRequest` returns the raw body
unmodified below status 400; at 400 and above it fails with the decoded
structured error when the body decodes with at least one item, and with
the generic error carrying the raw body and status otherwise. -/
theorem c5_doRequest_classification
    (decode : List Char → Option APIError) (status : Nat) (body : List Char) :
    (status < 400 → classifyResponse decode status body = .ok body) ∧
      (400 ≤ status → ∀ e, decode body = some e → 0 < e.errors.length →
        classifyResponse decode status body = .error (.api e)) ∧
      (400 ≤ status → decode body = none →
        classifyResponse decode status body = .error (.generic body status)) ∧
      (400 ≤ status → ∀ e, decode body = some e → e.errors.length = 0 →
        classifyResponse decode status body = .error (.generic body status)) := by
  unfold classifyResponse
  refine ⟨fun hlt => ?_, fun hge e he hpos => ?_, fun hge hnone => ?_, fun hge e he hzero => ?_⟩
  · rw [if_neg (by omega)]
  · rw [if_pos hge, he]
    simp [hpos]
  · rw [if_pos hge, hnone]
  · rw [if_pos hge, he]
    simp [hzero]

/-- C5 witness: the spec's example, a status-500 response with a body the
decoder rejects, fails with the generic error carrying that body and the
status. -/
theorem c5_doRequest_classification_witness :
    classifyResponse (fun _ => none) 500 "oops".toList
      = .error (.generic "oops".toList 500) :=
  (c5_doRequest_classification (fun _ => none) 500 "oops".toList).2.2.1 (by omega) rfl

/-- C6: against any server that answers `(limit 100, page 1)` with items
`a, b` and next cursor 2, and `(limit 100, page 2)` with item `c` and
next cursor 0, the pagination walk returns `[a, b, c]` and sends exactly
the two requests `(100, 1)` then `(100, 2)`: it starts at cursor 1,
continues at the reported next cursor, and stops at 0. -/
theorem c6_pagination_walk {α : Type}
    (server : Nat → Int → Except (List Char) (PostsPage α))
    (a b c : α) (fuel : Nat) (hfuel : 2 ≤ fuel)
    (h1 : server 100 1 = .ok ⟨[a, b], 2⟩)
    (h2 : server 100 2 = .ok ⟨[c], 0⟩) :
    fetchAllPosts server fuel = .ok [a, b, c] [(100, 1), (100, 2)] := by
  obtain ⟨f, rfl⟩ : ∃ f, fuel = f + 2 := ⟨fuel - 2, by omega⟩
  show fetchAllAux server (f + 2) 1 [] [] = _
  rw [fetchAllAux, h1]
  norm_num
  rw [fetchAllAux, h2]
  norm_num

/-- C6 witness: the stub server of spec §8 yields `[1, 2, 3]` in exactly
two calls. -/
theorem c6_pagination_walk_witness :
    fetchAllPosts stubServer 2 = .ok [1, 2, 3] [(100, 1), (100, 2)] :=
  c6_pagination_walk stubServer 1 2 3 2 (by omega) rfl rfl

/-- C10: the admin key `"id:"` is accepted: the empty secret hex-decodes
to the empty byte string, token issuance succeeds, and the resulting
token is signed with the empty HMAC key. -/
theorem c10_empty_secret_accepted (now : Int) :
    hexDecode [] = .ok [] ∧
      GenerateToken "id:".toList now = .ok (mkToken "id".toList [] now).compact ∧
      (mkToken "id".toList [] now).signature
        = hmacSha256 [] (utf8Bytes (signingInput (mkToken "id".toList [] now))) :=
  ⟨rfl, rfl, rfl⟩

/-- C4 counterexample: a status-200 upload response whose images array
holds one entry with an empty URL is returned as the empty string; the
code does not fail on an empty URL, contradicting the claim. -/
theorem c4_upload_empty_url_counterexample :
    uploadHandleResponse (fun _ => none) (fun _ => some [⟨[], []⟩]) 200 "body".toList
      = .ok [] := by
  decide

/-- C4 amended: for an upload response with status below 400, the call
fails with the unmarshal error when the body does not decode, fails with
the shape error exactly when the decoded images array is empty (also
covering an absent field, which decodes to the nil slice), and otherwise
returns the URL of the first entry — even when that URL is empty. -/
theorem c4_upload_decoding
    (decodeApiError : List Char → Option APIError)
    (decodeImages : List Char → Option (List ImageEntry))
    (status : Nat) (body : List Char) (h : status < 400) :
    (decodeImages body = none →
        uploadHandleResponse decodeApiError decodeImages status body
          = .error .parseResponse) ∧
      (decodeImages body = some [] →
        uploadHandleResponse decodeApiError decodeImages status body
          = .error .noImageURL) ∧
      (∀ img rest, decodeImages body = some (img :: rest) →
        uploadHandleResponse decodeApiError decodeImages status body = .ok img.url) := by
  unfold uploadHandleResponse
  rw [if_neg (by omega)]
  refine ⟨fun hnone => ?_, fun hempty => ?_, fun img rest hsome => ?_⟩
  · rw [hnone]
  · rw [hempty]
  · rw [hsome]

/-- C4 amended, witness: a decoded single-image response yields its URL. -/
theorem c4_upload_decoding_witness :
    uploadHandleResponse (fun _ => none) (fun _ => some [⟨"u".toList, []⟩]) 200 []
      = .ok "u".toList :=
  (c4_upload_decoding (fun _ => none) (fun _ => some [⟨"u".toList, []⟩]) 200 []
    (by omega)).2.2 ⟨"u".toList, []⟩ [] rfl

/-- C7: for a well-formed admin key, the issued token carries
`iat = now`, `exp = now + 300`, `aud = "/admin/"`, the algorithm name
`HS256` and the key id in the header, and its signature is HMAC-SHA256
over the encoded header and claims under the hex-decoded secret bytes. -/
theorem c7_token_shape (adminKey : List Char) (now : Int)
    (kid secret : List Char) (bytes : List Nat)
    (hsplit : splitFirstColon adminKey = some (kid, secret))
    (hhex : hexDecode secret = .ok bytes) :
    GenerateToken adminKey now = .ok (mkToken kid bytes now).compact ∧
      (mkToken kid bytes now).iat = now ∧
      (mkToken kid bytes now).exp = now + 300 ∧
      (mkToken kid bytes now).aud = "/admin/".toList ∧
      (mkToken kid bytes now).alg = "HS256".toList ∧
      (mkToken kid bytes now).kid = kid ∧
      (mkToken kid bytes now).signature
        = hmacSha256 bytes (utf8Bytes (signingInput (mkToken kid bytes now))) := by
  refine ⟨?_, rfl, rfl, rfl, rfl, rfl, rfl⟩
  simp only [GenerateToken, hsplit, hhex]

/-- C7 witness: the spec's fixed key and a fixed clock reading. -/
theorem c7_token_shape_witness :
    GenerateToken "abc123:deadbeef".toList 1700000000
      = .ok (mkToken "abc123".toList [222, 173, 190, 239] 1700000000).compact :=
  (c7_token_shape "abc123:deadbeef".toList 1700000000 "abc123".toList
    "deadbeef".toList [222, 173, 190, 239] (by decide) (by decide)).1

/-- Splitting helper: a string without a colon has no split point. -/
theorem splitFirstColon_eq_none (s : List Char) (h : ∀ c ∈ s, c ≠ ':') :
    splitFirstColon s = none := by
  induction s with
  | nil => rfl
  | cons c rest ih =>
    simp only [splitFirstColon]
    rw [if_neg (h c (by simp)), ih (fun x hx => h x (by simp [hx]))]

/-- Splitting helper: the split happens at the first colon, leaving any
later colons inside the secret part. -/
theorem splitFirstColon_first (id rest : List Char) (h : ∀ c ∈ id, c ≠ ':') :
    splitFirstColon (id ++ ':' :: rest) = some (id, rest) := by
  induction id with
  | nil => simp [splitFirstColon]
  | cons c l ih =>
    rw [List.cons_append]
    simp only [splitFirstColon]
    rw [if_neg (h c (by simp)), ih (fun x hx => h x (by simp [hx]))]

/-- C8: `GenerateToken` splits the key at the first colon only: a key
with no colon fails with the bad-format error, and a key whose part
after the first colon fails hex decoding fails with the bad-secret error
wrapping that decode failure. -/
theorem c8_key_split_errors (now : Int) :
    (∀ s : List Char, (∀ c ∈ s, c ≠ ':') →
        GenerateToken s now = .error .badFormat) ∧
      (∀ id rest : List Char, (∀ c ∈ id, c ≠ ':') →
        splitFirstColon (id ++ ':' :: rest) = some (id, rest)) ∧
      (∀ (id rest : List Char) (e : HexError), (∀ c ∈ id, c ≠ ':') →
        hexDecode rest = .error e →
        GenerateToken (id ++ ':' :: rest) now = .error (.badSecret e)) := by
  refine ⟨fun s h => ?_, splitFirstColon_first, fun id rest e hid hhex => ?_⟩
  · simp only [GenerateToken, splitFirstColon_eq_none s h]
  · simp only [GenerateToken, splitFirstColon_first id rest hid, hhex]

/-- C8 witness: the spec's two examples, a key with no separator and a
key with a non-hex secret. -/
theorem c8_key_split_errors_witness :
    GenerateToken "noColonHere".toList 0 = .error .badFormat ∧
      GenerateToken "id:zz".toList 0 = .error (.badSecret (.invalidChar 'z')) := by
  constructor
  · exact (c8_key_split_errors 0).1 "noColonHere".toList (by decide)
  · have heq : "id:zz".toList = "id".toList ++ ':' :: "zz".toList := by decide
    rw [heq]
    exact (c8_key_split_errors 0).2.2 "id".toList "zz".toList (.invalidChar 'z')
      (by decide) (by decide)

/-- Hex helper: decoding a lowercase digit pair recovers the byte. -/
theorem hexPair_digits (x : Nat) (h : x < 256) :
    hexPair (hexDigit (x / 16)) (hexDigit (x % 16)) = .ok x := by
  have h1 : x / 16 < 16 := by omega
  have h2 : x % 16 < 16 := Nat.mod_lt _ (by omega)
  have d1 : ∀ n < 16, hexNibble (hexDigit n) = .ok n := by decide
  have dv : ∀ a < 16, ∀ b < 16, (((0 <<< 4 ||| a) <<< 4) ||| b) = 16 * a + b := by decide
  simp only [hexPair, d1 _ h1, d1 _ h2, Except.bind, bind, pure]
  rw [dv _ h1 _ h2, Nat.div_add_mod]
  rfl

/-- Hex helper: decoding an uppercase digit pair recovers the byte. -/
theorem hexPair_digits_upper (x : Nat) (h : x < 256) :
    hexPair (hexDigitUpper (x / 16)) (hexDigitUpper (x % 16)) = .ok x := by
  have h1 : x / 16 < 16 := by omega
  have h2 : x % 16 < 16 := Nat.mod_lt _ (by omega)
  have d1 : ∀ n < 16, hexNibble (hexDigitUpper n) = .ok n := by decide
  have dv : ∀ a < 16, ∀ b < 16, (((0 <<< 4 ||| a) <<< 4) ||| b) = 16 * a + b := by decide
  simp only [hexPair, d1 _ h1, d1 _ h2, Except.bind, bind, pure]
  rw [dv _ h1 _ h2, Nat.div_add_mod]
  rfl

/-- Hex helper: the encoder emits two characters per byte. -/
theorem hexEncode_length (b : List Nat) : (hexEncode b).length = 2 * b.length := by
  induction b with
  | nil => rfl
  | cons x bs ih => simp only [hexEncode, List.length_cons, ih]; omega

/-- Hex helper: length of the uppercase encoder's output. -/
theorem hexEncodeUpper_length (b : List Nat) :
    (hexEncodeUpper b).length = 2 * b.length := by
  induction b with
  | nil => rfl
  | cons x bs ih => simp only [hexEncodeUpper, List.length_cons, ih]; omega

/-- Hex helper: the decode loop inverts the lowercase encoder. -/
theorem hexDecodeEven_encode (b : List Nat) (h : ∀ x ∈ b, x < 256) :
    hexDecodeEven (hexEncode b) = .ok b := by
  induction b with
  | nil => rfl
  | cons x bs ih =>
    simp only [hexEncode, hexDecodeEven, hexPair_digits x (h x (by simp)),
      ih (fun y hy => h y (by simp [hy])), Except.bind, bind, pure]
    rfl

/-- Hex helper: the decode loop inverts the uppercase encoder. -/
theorem hexDecodeEven_encodeUpper (b : List Nat) (h : ∀ x ∈ b, x < 256) :
    hexDecodeEven (hexEncodeUpper b) = .ok b := by
  induction b with
  | nil => rfl
  | cons x bs ih =>
    simp only [hexEncodeUpper, hexDecodeEven, hexPair_digits_upper x (h x (by simp)),
      ih (fun y hy => h y (by simp [hy])), Except.bind, bind, pure]
    rfl

/-- Hex helper: `hexNibble` fails exactly on characters outside the three
accepted ranges. -/
theorem hexNibble_err_iff (c : Char) :
    (∃ e, hexNibble c = .error e) ↔ ¬ isHexChar c := by
  unfold hexNibble isHexChar
  split_ifs with h1 h2 h3 <;> simp_all

/-- Hex helper: `hexPair` fails exactly when one of its two characters is
not a hex digit. -/
theorem hexPair_err_iff (c1 c2 : Char) :
    (∃ e, hexPair c1 c2 = .error e) ↔ ¬ isHexChar c1 ∨ ¬ isHexChar c2 := by
  rcases h1 : hexNibble c1 with e1 | n1
  · have : ¬ isHexChar c1 := (hexNibble_err_iff c1).mp ⟨e1, h1⟩
    simp [hexPair, h1, Except.bind, bind, this]
  · have hx1 : isHexChar c1 := by
      by_contra hc
      rcases (hexNibble_err_iff c1).mpr hc with ⟨e, he⟩
      rw [h1] at he; cases he
    rcases h2 : hexNibble c2 with e2 | n2
    · have : ¬ isHexChar c2 := (hexNibble_err_iff c2).mp ⟨e2, h2⟩
      simp [hexPair, h1, h2, Except.bind, bind, this, hx1]
    · have hx2 : isHexChar c2 := by
        by_contra hc
        rcases (hexNibble_err_iff c2).mpr hc with ⟨e, he⟩
        rw [h2] at he; cases he
      simp [hexPair, h1, h2, Except.bind, bind, pure, hx1, hx2, Except.pure]

/-- Hex helper: the decode loop fails exactly on odd length or a non-hex
character. -/
theorem hexDecodeEven_err_iff (s : List Char) :
    (∃ e, hexDecodeEven s = .error e) ↔
      s.length % 2 = 1 ∨ ∃ c ∈ s, ¬ isHexChar c := by
  induction s using hexDecodeEven.induct with
  | case1 => simp [hexDecodeEven]
  | case2 c => simp [hexDecodeEven]
  | case3 c1 c2 rest ih =>
    rcases hp : hexPair c1 c2 with e | b
    · have hbad := (hexPair_err_iff c1 c2).mp ⟨e, hp⟩
      have hlhs : hexDecodeEven (c1 :: c2 :: rest) = .error e := by
        simp [hexDecodeEven, hp, Except.bind, bind]
      rw [hlhs]
      simp only [List.mem_cons]
      constructor
      · intro _
        rcases hbad with hb | hb
        · exact Or.inr ⟨c1, Or.inl rfl, hb⟩
        · exact Or.inr ⟨c2, Or.inr (Or.inl rfl), hb⟩
      · intro _; exact ⟨e, rfl⟩
    · have hx12 : isHexChar c1 ∧ isHexChar c2 := by
        by_contra hc
        rcases (hexPair_err_iff c1 c2).mpr (by tauto) with ⟨e, he⟩
        rw [hp] at he; cases he
      rcases hr : hexDecodeEven rest with e' | bs
      · have hrest := ih.mp ⟨e', hr⟩
        have hlhs : hexDecodeEven (c1 :: c2 :: rest) = .error e' := by
          simp [hexDecodeEven, hp, hr, Except.bind, bind]
        rw [hlhs]
        simp only [List.mem_cons]
        constructor
        · intro _
          rcases hrest with hlen | ⟨c, hc, hb⟩
          · left; simp only [List.length_cons]; omega
          · exact Or.inr ⟨c, Or.inr (Or.inr hc), hb⟩
        · intro _; exact ⟨e', rfl⟩
      · have hlhs : hexDecodeEven (c1 :: c2 :: rest) = .ok (b :: bs) := by
          simp [hexDecodeEven, hp, hr, Except.bind, bind, pure, Except.pure]
        rw [hlhs]
        simp only [List.mem_cons]
        constructor
        · rintro ⟨e, he⟩; cases he
        · rintro (hlen | ⟨c, hc, hb⟩) <;> exfalso
          · have hodd : rest.length % 2 ≠ 1 := by
              intro hodd
              rcases ih.mpr (Or.inl hodd) with ⟨e, he⟩
              rw [hr] at he; cases he
            simp only [List.length_cons] at hlen; omega
          · rcases hc with rfl | rfl | hc
            · exact hb hx12.1
            · exact hb hx12.2
            · rcases ih.mpr (Or.inr ⟨c, hc, hb⟩) with ⟨e, he⟩
              rw [hr] at he; cases he

/-- Hex helper: on success the input has two characters per output byte. -/
theorem hexDecodeEven_ok_length (s : List Char) (r : List Nat)
    (h : hexDecodeEven s = .ok r) : s.length = 2 * r.length := by
  induction s using hexDecodeEven.induct generalizing r with
  | case1 => cases h; rfl
  | case2 c => cases h
  | case3 c1 c2 rest ih =>
    rcases hp : hexPair c1 c2 with e | b
    · rw [show hexDecodeEven (c1 :: c2 :: rest) = .error e by
        simp [hexDecodeEven, hp, Except.bind, bind]] at h
      cases h
    · rcases hr : hexDecodeEven rest with e' | bs
      · rw [show hexDecodeEven (c1 :: c2 :: rest) = .error e' by
          simp [hexDecodeEven, hp, hr, Except.bind, bind]] at h
        cases h
      · rw [show hexDecodeEven (c1 :: c2 :: rest) = .ok (b :: bs) by
          simp [hexDecodeEven, hp, hr, Except.bind, bind, pure, Except.pure]] at h
        cases h
        have := ih bs hr
        simp only [List.length_cons]
        omega

/-- C9: `hexDecode` inverts hex encoding (in both letter cases), fails
exactly on odd length or a character outside the hex ranges, and on
success consumed two characters per output byte. -/
theorem c9_hexDecode_spec :
    (∀ b : List Nat, (∀ x ∈ b, x < 256) → hexDecode (hexEncode b) = .ok b) ∧
      (∀ b : List Nat, (∀ x ∈ b, x < 256) → hexDecode (hexEncodeUpper b) = .ok b) ∧
      (∀ s : List Char,
        (∃ e, hexDecode s = .error e) ↔ s.length % 2 = 1 ∨ ∃ c ∈ s, ¬ isHexChar c) ∧
      (∀ (s : List Char) (r : List Nat), hexDecode s = .ok r → s.length = 2 * r.length) := by
  refine ⟨fun b hb => ?_, fun b hb => ?_, fun s => ?_, fun s r h => ?_⟩
  · unfold hexDecode
    rw [if_neg (by rw [hexEncode_length]; omega)]
    exact hexDecodeEven_encode b hb
  · unfold hexDecode
    rw [if_neg (by rw [hexEncodeUpper_length]; omega)]
    exact hexDecodeEven_encodeUpper b hb
  · unfold hexDecode
    by_cases hpar : s.length % 2 ≠ 0
    · rw [if_pos hpar]
      constructor
      · intro _; left; omega
      · intro _; exact ⟨.oddLength, rfl⟩
    · rw [if_neg hpar]
      rw [hexDecodeEven_err_iff]
  · unfold hexDecode at h
    by_cases hpar : s.length % 2 ≠ 0
    · rw [if_pos hpar] at h; cases h
    · rw [if_neg hpar] at h
      exact hexDecodeEven_ok_length s r h

/-- C9 witness: round trips in both cases at concrete bytes, a failing
odd-length input, and the two-per-byte length at a concrete input. -/
theorem c9_hexDecode_spec_witness :
    hexDecode (hexEncode [222, 173, 190, 239]) = .ok [222, 173, 190, 239] ∧
      hexDecode (hexEncodeUpper [222, 173]) = .ok [222, 173] ∧
      (∃ e, hexDecode "abc".toList = .error e) ∧
      "deadbeef".toList.length = 2 * ([222, 173, 190, 239] : List Nat).length :=
  ⟨c9_hexDecode_spec.1 _ (by decide),
    c9_hexDecode_spec.2.1 _ (by decide),
    (c9_hexDecode_spec.2.2.1 "abc".toList).mpr (Or.inl (by decide)),
    c9_hexDecode_spec.2.2.2 "deadbeef".toList _ (by decide)⟩

end Specter
